import Mathlib

/-!
Verification of the Tango `distDocker` backend (src/vmms/distDocker.py)
against its natural-language specification.

Shallow embedding conventions:
* Python strings are Lean `String`s (with `.data : List Char` where the
  source splits or scans characters).
* External process outcomes (exit statuses observed by `p.poll()` or by the
  `timeout` helper) are supplied as oracle parameters: a poll function
  `Nat → Option Int` (`none` = still running) or a per-call exit status.
* Wall-clock time is discretised in units of `config.Config.TIMER_POLL_INTERVAL`:
  a deadline of `time_out` seconds corresponds to
  `maxSteps = ceil(time_out / TIMER_POLL_INTERVAL)` sleep steps.
* A Python `NameError` (the source references several names that are not
  bound in the enclosing scope) is modelled as `Except.error`; name
  resolution is made explicit where that is the behaviour under scrutiny.
-/

set_option autoImplicit false

/-- The machine descriptor from `tangoObjects.TangoMachine`, restricted to the
fields `distDocker.py` reads or writes: `vmms`, `name`, `domain_name`, `id`,
`image` (all strings; `domain_name` is the assigned host). -/
structure TangoMachine where
  vmms : String
  name : String
  domain_name : String
  id : String
  image : String
deriving DecidableEq

/-- One input file for `copyIn`: `file.localFile` is concatenated into the
scp argument list as a list of paths (line 200), `file.destFile` is the
destination-relative path. -/
structure InputFile where
  localFile : List String
  destFile : String
deriving DecidableEq

/-- The host-selection state of `DistDocker`: `self.hosts` and
`self.hostIdx` (lines 78-79).  The lock (line 80) serialises
`getHost`; each call is modelled as one atomic state transition. -/
structure HostPool where
  hosts : List String
  hostIdx : Nat
deriving DecidableEq

/-- One remote-shell / remote-copy invocation issued through `timeout`:
the ssh user, the target host, the command string, and the local deadline
in seconds passed to `timeout` (1 is the source default). -/
structure RemoteCmd where
  user : String
  host : String
  cmd : String
  deadline : Nat
deriving DecidableEq

/-- `DistDocker.getHost` (lines 91-98): return `self.hosts[self.hostIdx]`,
then advance the index and wrap it to 0 when it reaches the list length.
`none` models the `IndexError` Python would raise on an out-of-range index. -/
def getHost (p : HostPool) : Option String × HostPool :=
  match p.hosts.get? p.hostIdx with
  | none => (none, p)
  | some h =>
      let i := p.hostIdx + 1
      (some h, ⟨p.hosts, if p.hosts.length ≤ i then 0 else i⟩)

/-- `n` consecutive `getHost` calls from state `p`: the list of returned
hosts in call order, and the final pool state. -/
def getHostSeq (p : HostPool) : Nat → List (Option String) × HostPool
  | 0 => ([], p)
  | n + 1 =>
      let r := getHost p
      let s := getHostSeq r.2 n
      (r.1 :: s.1, s.2)

/-- `DistDocker.instanceName` (lines 100-105):
`"%s-%s-%s" % (config.Config.PREFIX, id, name)`.  `pfx` is the configured
`config.Config.PREFIX`. -/
def instanceName (pfx id image : String) : String :=
  pfx ++ "-" ++ id ++ "-" ++ image

/-- `DistDocker.getVolumePath` (lines 107-112): the configured
`DOCKER_VOLUME_PATH`, replaced by `os.getcwd() + '/' + 'volumes/'` when it
contains a `*`, with the instance name and a trailing `/` appended. -/
def getVolumePath (dockerVolumePath cwd inst : String) : String :=
  (if ('*') ∈ dockerVolumePath.data then cwd ++ "/" ++ "volumes/"
   else dockerVolumePath) ++ inst ++ "/"

/-- Python's `str.split(sep)` for a one-character separator, on the
character list of the string: every occurrence of `sep` is a cut point and
empty segments are kept, so the result is always non-empty. -/
def pySplit (sep : Char) : List Char → List (List Char)
  | [] => [[]]
  | c :: rest =>
      if c = sep then [] :: pySplit sep rest
      else
        match pySplit sep rest with
        | [] => [[c]]
        | seg :: segs => (c :: seg) :: segs

/-- The per-host loop body of `DistDocker.getVMs` (lines 310-319): for each
directory entry of the remote volume listing, if it matches the prefix
(`re.match("%s-" % PREFIX, volume)`, modelled for a metacharacter-free
prefix as a literal prefix test), split it on `-` and build a record from
components 1 and 2 (`volume_l[1]`, `volume_l[2]`).  `Except.error` models
the `IndexError` raised when a matching entry has fewer than 3 components. -/
def getVMsHost (pfx host : String) : List String → Except String (List TangoMachine)
  | [] => .ok []
  | v :: rest =>
      if (pfx ++ "-").data.isPrefixOf v.data then
        match pySplit '-' v.data with
        | _ :: i :: m :: _ =>
            match getVMsHost pfx host rest with
            | .ok ms => .ok (⟨"distDocker", v, host, String.mk i, String.mk m⟩ :: ms)
            | .error e => .error e
        | _ => .error "IndexError: list index out of range"
      else getVMsHost pfx host rest

/-- Python local-name resolution over the string-valued locals of a scope:
looking up an unbound name raises `NameError`. -/
def lookupLocal (env : List (String × String)) (x : String) : Except String String :=
  match env with
  | [] => .error ("NameError: " ++ x)
  | (k, v) :: rest => if k = x then .ok v else lookupLocal rest x

/-- `DistDocker.copyOut` (lines 248-266).  The locals bound by the body are
`domainName`, `instanceName` and `volumePath` (lines 253-255), but the scp
source argument on line 259 is formatted from the name `domain_name`, which
is not among them — so the call raises `NameError` while building the scp
argument list, before the copy, before `destroyVM` (line 264) and before
`return 0` (line 266).  The result pairs the number of `destroyVM`
invocations performed with the outcome; `scpRet` is the (discarded) outcome
the bounded scp would produce on the normal path. -/
def copyOut (pfx dockerVolumePath cwd : String) (scpRet : Int)
    (vm : TangoMachine) (destFile : String) : Nat × Except String Int :=
  let domainName := vm.domain_name
  let inst := instanceName pfx vm.id vm.image
  let volumePath := getVolumePath dockerVolumePath cwd inst
  let env := [("domainName", domainName), ("instanceName", inst),
              ("volumePath", volumePath), ("destFile", destFile)]
  match lookupLocal env "domain_name" with
  | .error e => (0, .error e)
  | .ok _d =>
      let _ret := scpRet
      (1, .ok 0)

/-- The file loop of `DistDocker.copyIn` (lines 199-211): `fileRet k` is the
exit status of the bounded scp for the file at (0-based) position `k`.  On
status 0 the file is recorded as copied and the loop continues; on the first
non-zero status the source's error log (lines 208-210) formats the unbound
name `domain_name` (the local is `domainName`), so a `NameError` is raised
instead of reaching `return ret` on line 211.  Returns the indices copied,
in order, with the outcome. -/
def copyInLoop (fileRet : Nat → Int) : Nat → List InputFile → List Nat × Except String Int
  | _, [] => ([], .ok 0)
  | k, _f :: rest =>
      if fileRet k = 0 then
        match copyInLoop fileRet (k + 1) rest with
        | (copied, res) => (k :: copied, res)
      else
        ([], .error "NameError: domain_name")

/-- `DistDocker.copyIn` (lines 180-213): `dirRet` is the exit status of the
bounded `rm -rf; mkdir` of the working directory (lines 190-193); a non-zero
status is returned at once with no file copied, otherwise the file loop
runs. -/
def copyIn (dirRet : Int) (fileRet : Nat → Int) (files : List InputFile) :
    List Nat × Except String Int :=
  if dirRet = 0 then copyInLoop fileRet 0 files
  else ([], .ok dirRet)

/-- `DistDocker.destroyVM` (lines 268-285), as the list of remote-shell
calls it issues (their outcomes are ignored by the source, matching the
best-effort contract).  Note line 273: the working-directory path is
computed as `getVolumePath('')` — the instance name computed on line 272 is
not used — so the `rm -rf` targets the shared base path; the format string
on line 283 also lacks the closing `)` of the shell group, and that call
passes no deadline, so `timeout`'s default of 1 applies. -/
def destroyVM (pfx dockerVolumePath cwd : String) (dockerRmTimeout : Nat)
    (vm : TangoMachine) : List RemoteCmd :=
  let domainName := vm.domain_name
  let inst := instanceName pfx vm.id vm.image
  let volumePath := getVolumePath dockerVolumePath cwd ""
  [⟨"ubuntu", domainName, "(docker rm -f " ++ inst ++ ")", dockerRmTimeout⟩,
   ⟨"ubuntu", domainName, "(rm -rf " ++ volumePath, 1⟩]

/-- `DistDocker.existsVM` (lines 322-327), with the `getVMs()` result
supplied as `machines`.  The body binds `vms` and `vmnames`, but line 327
evaluates `vm.name in vmname` — and `vmname` is not a bound name — so the
membership test raises `NameError` instead of returning a boolean. -/
def existsVM (machines : List TangoMachine) (vm : TangoMachine) : Except String Bool :=
  let vmnames := machines.map (fun m => m.name)
  if ("vmname" : String) ∈ ["self", "vm", "vms", "vmnames"] then
    .ok (vmnames.contains vm.name)
  else
    .error "NameError: vmname"

/-- The polling loop of `timeout` (lines 27-38), `rem` sleep steps of
`TIMER_POLL_INTERVAL` remaining, `k` sleeps taken so far.  `pollFn k` is
`p.poll()` after `k` sleeps (`none` = still running).  While time remains
and the poll is `none`, sleep; afterwards poll once more: `none` means the
deadline elapsed, so `kill -9` is sent (second component `true`) and `-1`
returned, otherwise the real exit status is returned un-killed. -/
def timeoutGo (pollFn : Nat → Option Int) : Nat → Nat → Int × Bool
  | k, 0 =>
      match pollFn k with
      | none => (-1, true)
      | some r => (r, false)
  | k, rem + 1 =>
      match pollFn k with
      | none => timeoutGo pollFn (k + 1) rem
      | some r => (r, false)

/-- `timeout` (lines 15-38): run a command with a deadline of `maxSteps`
poll intervals.  Result: (returned status, whether `kill -9` was sent). -/
def timeout (pollFn : Nat → Option Int) (maxSteps : Nat) : Int × Bool :=
  timeoutGo pollFn 0 maxSteps

/-- A poll function describes one external process: once it reports an exit
status it keeps reporting that same status. -/
def Stable (pollFn : Nat → Option Int) : Prop :=
  ∀ j r, pollFn j = some r → ∀ k, j ≤ k → pollFn k = some r

/-- Result of polling one invocation inside `timeoutWithReturnStatus` until
it exits or the time budget runs out. -/
inductive InnerRes where
  | timedOut (last : Option Int)
  | hitTarget (r : Int)
  | nonTarget (r : Int) (fuelLeft : Nat)
deriving DecidableEq

/-- The inner polling of one invocation inside `timeoutWithReturnStatus`
(lines 49-56): while time remains, poll; `none` consumes one time step and
sets `ret` to `None`; the target status exits the loop; any other status
leaves the loop body for a relaunch with the time budget unchanged (the
counter `t` is only advanced in the still-running branch).  When time runs
out the current value of `ret` is returned (`none` is Python `None`). -/
def tRSInner (pollsI : Nat → Option Int) (target : Int) :
    Nat → Option Int → Nat → InnerRes
  | _, last, 0 => .timedOut last
  | age, _last, fuelT + 1 =>
      match pollsI age with
      | none => tRSInner pollsI target (age + 1) none fuelT
      | some r => if r = target then .hitTarget r else .nonTarget r (fuelT + 1)

/-- The relaunch loop of `timeoutWithReturnStatus` (lines 45-60):
`polls i` is the poll function of the `i`-th launched process.  A non-target
exit status relaunches the command immediately with the same remaining time
budget; `fuelR` bounds the number of relaunches so the model is total, and
`none` marks the runs that exhaust it (the source would keep relaunching
with no time accounted). -/
def tRSOuter (polls : Nat → Nat → Option Int) (target : Int) :
    Nat → Nat → Option Int → Nat → Option (Option Int)
  | i, fuelT, last, fuelR =>
      match tRSInner (polls i) target 0 last fuelT with
      | .timedOut l => some l
      | .hitTarget r => some (some r)
      | .nonTarget r ft =>
          match fuelR with
          | 0 => none
          | fuelR2 + 1 => tRSOuter polls target (i + 1) ft (some r) fuelR2

/-- `timeoutWithReturnStatus` (lines 40-60) with a deadline of `fuelT` poll
intervals and relaunch budget `fuelR`.  The initial `ret` is modelled as
`none`; `some v` is a normal return of the Python value `v`
(`some (some r)` an integer status, `some none` the value `None`). -/
def timeoutWithReturnStatus (polls : Nat → Nat → Option Int) (target : Int)
    (fuelT fuelR : Nat) : Option (Option Int) :=
  tRSOuter polls target 0 fuelT none fuelR

/-- The loop of `DistDocker.safeDestroyVM` (lines 291-298), with time
discretised so that the `i`-th guard evaluation happens at elapsed time `i`
(each `existsVM` round trip plus `destroyVM` takes one unit).  `guard i` is
the evaluation of `self.existsVM(vm)` at time `i`: like the real callee it
may raise (`Except.error`), and an uncaught exception in the guard
propagates out of `safeDestroyVM` at once.  `maxSecs` is
`config.Config.DESTROY_SECS`.  While the machine exists: give up with an
error log once elapsed time exceeds `maxSecs` (component `false`), else
destroy and re-check; a false guard returns cleanly (component `true`).
The second component of a normal result is the return time; the outer
`none` is fuel exhaustion. -/
def safeDestroyGo (guard : Nat → Except String Bool) (maxSecs : Nat) :
    Nat → Nat → Option (Except String (Bool × Nat))
  | 0, _ => none
  | fuel + 1, i =>
      match guard i with
      | .error e => some (.error e)
      | .ok true =>
          if maxSecs < i then some (.ok (false, i))
          else safeDestroyGo guard maxSecs fuel (i + 1)
      | .ok false => some (.ok (true, i))

/-- `DistDocker.safeDestroyVM` (lines 287-298) over a guard oracle, started
at time 0 with fuel `maxSecs + 2`, which suffices for every oracle. -/
def safeDestroyVM (guard : Nat → Except String Bool) (maxSecs : Nat) :
    Option (Except String (Bool × Nat)) :=
  safeDestroyGo guard maxSecs (maxSecs + 2) 0

/-- `DistDocker.safeDestroyVM` as the source composes it: the loop guard on
line 292 is the real `self.existsVM(vm)` (lines 322-327), with the
`getVMs()` result it would enumerate supplied as `machines`. -/
def safeDestroyVMDist (machines : List TangoMachine) (vm : TangoMachine)
    (maxSecs : Nat) : Option (Except String (Bool × Nat)) :=
  safeDestroyVM (fun _ => existsVM machines vm) maxSecs

/-- `DistDocker.initializeVM` (lines 123-129): assign the next pool host to
`vm.domain_name` and return the machine (here: the updated record, plus the
advanced pool).  `none` models the `IndexError` of an out-of-range cursor. -/
def initializeVM (p : HostPool) (vm : TangoMachine) : Option (TangoMachine × HostPool) :=
  match getHost p with
  | (none, _) => none
  | (some host, p2) => some ({ vm with domain_name := host }, p2)

/-! ## Helper lemmas -/

theorem pySplit_noSep (sep : Char) : ∀ s : List Char, sep ∉ s → pySplit sep s = [s]
  | [], _ => rfl
  | c :: t, h => by
      have hc : ¬ (c = sep) := fun hh => h (hh ▸ List.mem_cons_self c t)
      have ht := pySplit_noSep sep t (fun hm => h (List.mem_cons_of_mem c hm))
      simp [pySplit, hc, ht]

theorem pySplit_append_sep (sep : Char) :
    ∀ (a b : List Char), sep ∉ a → pySplit sep (a ++ sep :: b) = a :: pySplit sep b
  | [], _b, _ => by simp [pySplit]
  | c :: t, b, h => by
      have hc : ¬ (c = sep) := fun hh => h (hh ▸ List.mem_cons_self c t)
      have ht := pySplit_append_sep sep t b (fun hm => h (List.mem_cons_of_mem c hm))
      simp [pySplit, hc, ht]

theorem instanceName_data (pfx id image : String) :
    (instanceName pfx id image).data = pfx.data ++ '-' :: (id.data ++ '-' :: image.data) := by
  have hdash : ("-" : String).data = ['-'] := rfl
  simp [instanceName, String.data_append, hdash]

theorem getHostSeq_succ (p : HostPool) (n : Nat) :
    getHostSeq p (n + 1) =
      ((getHost p).1 :: (getHostSeq (getHost p).2 n).1, (getHostSeq (getHost p).2 n).2) := rfl

theorem getHostSeq_cycle (hosts : List String) :
    ∀ n i, i + (n + 1) = hosts.length →
      getHostSeq ⟨hosts, i⟩ (n + 1) = ((hosts.drop i).map some, ⟨hosts, 0⟩) := by
  intro n
  induction n with
  | zero =>
      intro i hi
      have hlt : i < hosts.length := by omega
      have hget : hosts[i]? = some hosts[i] := List.getElem?_eq_getElem hlt
      have hwrap : hosts.length ≤ i + 1 := by omega
      have hdrop : hosts.drop i = hosts[i] :: hosts.drop (i + 1) :=
        List.drop_eq_getElem_cons hlt
      have hdrop2 : hosts.drop (i + 1) = [] := List.drop_eq_nil_of_le (by omega)
      simp [getHostSeq, getHost, hget, hwrap, hdrop, hdrop2]
  | succ n ih =>
      intro i hi
      have hlt : i < hosts.length := by omega
      have hget : hosts[i]? = some hosts[i] := List.getElem?_eq_getElem hlt
      have hnwrap : ¬ hosts.length ≤ i + 1 := by omega
      have hdrop : hosts.drop i = hosts[i] :: hosts.drop (i + 1) :=
        List.drop_eq_getElem_cons hlt
      have hstep : getHost ⟨hosts, i⟩ = (some hosts[i], ⟨hosts, i + 1⟩) := by
        simp [getHost, hget, hnwrap]
      have ihx := ih (i + 1) (by omega)
      have hs := getHostSeq_succ (⟨hosts, i⟩ : HostPool) (n + 1)
      rw [hstep] at hs
      dsimp only at hs
      rw [ihx] at hs
      dsimp only at hs
      rw [hs, hdrop]
      simp only [List.map_cons]

theorem timeoutGo_spec (pollFn : Nat → Option Int) (hst : Stable pollFn) :
    ∀ rem k,
      (∀ r, pollFn (k + rem) = some r → timeoutGo pollFn k rem = (r, false)) ∧
      (pollFn (k + rem) = none → timeoutGo pollFn k rem = (-1, true)) := by
  intro rem
  induction rem with
  | zero =>
      intro k
      constructor
      · intro r hr
        simp only [Nat.add_zero] at hr
        simp [timeoutGo, hr]
      · intro h0
        simp only [Nat.add_zero] at h0
        simp [timeoutGo, h0]
  | succ rem ih =>
      intro k
      cases hp : pollFn k with
      | none =>
          have hrw : k + (rem + 1) = (k + 1) + rem := by omega
          constructor
          · intro r hr
            rw [hrw] at hr
            simpa [timeoutGo, hp] using (ih (k + 1)).1 r hr
          · intro h0
            rw [hrw] at h0
            simpa [timeoutGo, hp] using (ih (k + 1)).2 h0
      | some r0 =>
          have hlater : pollFn (k + (rem + 1)) = some r0 := hst k r0 hp _ (by omega)
          constructor
          · intro r hr
            rw [hlater] at hr
            have hr0 : r0 = r := Option.some.inj hr
            simp [timeoutGo, hp, hr0]
          · intro h0
            rw [hlater] at h0
            exact absurd h0 (by simp)


/-! ## Claim theorems -/

/-- C1: refuted on the code (code bug).  `copyOut` never reaches the copy,
the destroy, or `return 0`: for every machine and destination the scp
argument list on line 259 reads the unbound name `domain_name` (the local
bound on line 253 is `domainName`), so the call raises `NameError` having
invoked `destroyVM` zero times — not exactly once — and returns no success
code. -/
theorem copyOut_raises (pfx dockerVolumePath cwd : String) (scpRet : Int)
    (vm : TangoMachine) (destFile : String) :
    copyOut pfx dockerVolumePath cwd scpRet vm destFile =
      (0, .error "NameError: domain_name") := rfl

/-- C2: refuted on the code (code bug).  `existsVM` never returns a
boolean: line 327 tests membership in the unbound name `vmname` (the list
built on line 326 is `vmnames`), so for every enumeration result and every
machine the call raises `NameError`. -/
theorem existsVM_raises (machines : List TangoMachine) (vm : TangoMachine) :
    existsVM machines vm = .error "NameError: vmname" := rfl

/-- C3: the directory-reset-failure path and the all-success path behave as
claimed (first and second conjuncts), but when the copy of file `k` is the
first to return non-zero, `copyIn` does not return that code: the files
before `k` are copied and the later files are not attempted, and then the
error-logging line 208-210 reads the unbound name `domain_name`, raising
`NameError` instead of returning file `k`'s outcome (third conjunct:
directory reset ok, file 1 of 3 fails with status 3, only file 0 copied,
`NameError` raised). -/
theorem copyIn_eval :
    copyIn 2 (fun _ => 0) [⟨["a"], "a"⟩, ⟨["b"], "b"⟩, ⟨["c"], "c"⟩] = ([], .ok 2) ∧
    copyIn 0 (fun _ => 0) [⟨["a"], "a"⟩, ⟨["b"], "b"⟩, ⟨["c"], "c"⟩] =
      ([0, 1, 2], .ok 0) ∧
    copyIn 0 (fun k => if k = 1 then 3 else 0) [⟨["a"], "a"⟩, ⟨["b"], "b"⟩, ⟨["c"], "c"⟩] =
      ([0], .error "NameError: domain_name") :=
  ⟨rfl, rfl, rfl⟩

/-- C4: confirmed.  From a fresh pool over a non-empty host list, the first
`hosts.length` calls to `getHost` return exactly the host list in its
original order, the pool returns to its fresh state, and therefore call
N+1 returns the same host as call 1. -/
theorem getHost_roundRobin (hosts : List String) (h : hosts ≠ []) :
    getHostSeq ⟨hosts, 0⟩ hosts.length = (hosts.map some, ⟨hosts, 0⟩) ∧
    (getHost (getHostSeq ⟨hosts, 0⟩ hosts.length).2).1 = (getHost ⟨hosts, 0⟩).1 := by
  obtain ⟨n, hn⟩ : ∃ n, hosts.length = n + 1 := by
    cases hosts with
    | nil => exact absurd rfl h
    | cons a t => exact ⟨t.length, rfl⟩
  have hc := getHostSeq_cycle hosts n 0 (by omega)
  simp only [List.drop_zero] at hc
  constructor
  · rw [hn, hc]
  · rw [hn, hc]

theorem getHost_roundRobin_witness :
    getHostSeq ⟨["hostA", "hostB"], 0⟩ (["hostA", "hostB"] : List String).length =
      ((["hostA", "hostB"] : List String).map some, ⟨["hostA", "hostB"], 0⟩) ∧
    (getHost (getHostSeq ⟨["hostA", "hostB"], 0⟩
        (["hostA", "hostB"] : List String).length).2).1 =
      (getHost ⟨["hostA", "hostB"], 0⟩).1 :=
  getHost_roundRobin ["hostA", "hostB"] (by decide)

/-- C5: confirmed.  For a separator-free configured prefix and
separator-free id and image, building the instance name and parsing it back
the way `getVMs` does (prefix match, split on `-`, components 1 and 2)
recovers exactly the original id and image. -/
theorem instanceName_roundtrip (pfx host id image : String)
    (h1 : ('-') ∉ pfx.data) (h2 : ('-') ∉ id.data) (h3 : ('-') ∉ image.data) :
    getVMsHost pfx host [instanceName pfx id image] =
      .ok [⟨"distDocker", instanceName pfx id image, host, id, image⟩] := by
  have hdash : ("-" : String).data = ['-'] := rfl
  have hdata := instanceName_data pfx id image
  have hpfxd : (pfx ++ "-").data = pfx.data ++ ['-'] := by
    simp [String.data_append, hdash]
  have hguard : (pfx ++ "-").data.isPrefixOf (instanceName pfx id image).data = true := by
    rw [hpfxd, hdata]
    have hp : (pfx.data ++ ['-']) <+: (pfx.data ++ '-' :: (id.data ++ '-' :: image.data)) :=
      ⟨id.data ++ '-' :: image.data, by simp⟩
    exact List.isPrefixOf_iff_prefix.mpr hp
  have hsplit : pySplit '-' (instanceName pfx id image).data =
      [pfx.data, id.data, image.data] := by
    rw [hdata, pySplit_append_sep '-' pfx.data _ h1, pySplit_append_sep '-' id.data _ h2,
        pySplit_noSep '-' image.data h3]
  simp only [getVMsHost, hguard, if_true, hsplit]

theorem instanceName_roundtrip_witness :
    getVMsHost "tango" "hostA" [instanceName "tango" "17" "ubuntu"] =
      .ok [⟨"distDocker", instanceName "tango" "17" "ubuntu", "hostA", "17", "ubuntu"⟩] :=
  instanceName_roundtrip "tango" "hostA" "17" "ubuntu" (by decide) (by decide) (by decide)

/-- C6: confirmed.  For a stable poll function (a real process: once exited,
the status stays put): if the process has exited by the final deadline poll
its real exit status is returned and no kill is sent, and if it is still
running at the deadline, `kill -9` is sent and the sentinel -1 is
returned. -/
theorem timeout_spec (pollFn : Nat → Option Int) (maxSteps : Nat) (hst : Stable pollFn) :
    (∀ r, pollFn maxSteps = some r → timeout pollFn maxSteps = (r, false)) ∧
    (pollFn maxSteps = none → timeout pollFn maxSteps = (-1, true)) := by
  have h := timeoutGo_spec pollFn hst maxSteps 0
  simpa [timeout, Nat.zero_add] using h

theorem timeout_spec_witness : timeout (fun _ => some 7) 5 = (7, false) :=
  (timeout_spec (fun _ => some 7) 5 (fun _ _r h _ _ => h)).1 7 rfl

/-- C7: refuted on the code (code bug).  The elapsed-time counter `t` only
advances in the still-running branch of `timeoutWithReturnStatus`, so the
`while` guard can only fail right after `ret = p.poll()` yielded `None`:
when the deadline elapses the function returns the Python value `None`
(modelled `some none`), never the last invocation's integer exit status.
Here the command never exits within a 3-interval deadline and the call
returns `None`. -/
theorem timeoutWithReturnStatus_returns_none :
    timeoutWithReturnStatus (fun _ _ => none) 0 3 9 = some none := rfl

/-- C8: refuted on the code (code bug).  `destroyVM` does issue exactly two
best-effort remote-shell calls and escalates nothing, but line 273 computes
the removal path as `getVolumePath('')` — ignoring the instance name
computed on line 272 — so the second call removes `/vol//`, the shared base
path, not the machine's own working directory `/vol/tango-17-ubuntu/`
(and its shell string lacks the closing parenthesis, and it runs under the
default 1-second deadline instead of a configured one). -/
theorem destroyVM_removes_base_path :
    destroyVM "tango" "/vol/" "/cwd" 5
        ⟨"distDocker", "tango-17-ubuntu", "hostA", "17", "ubuntu"⟩ =
      [⟨"ubuntu", "hostA", "(docker rm -f tango-17-ubuntu)", 5⟩,
       ⟨"ubuntu", "hostA", "(rm -rf /vol//", 1⟩] ∧
    getVolumePath "/vol/" "/cwd" (instanceName "tango" "17" "ubuntu") =
      "/vol/tango-17-ubuntu/" :=
  ⟨by decide, by decide⟩

/-- C9: refuted on the code (code bug).  The loop guard of `safeDestroyVM`
(line 292) calls the real `existsVM`, which always raises `NameError`
(line 327, C2's defect), so for every machine, every enumeration result and
every `DESTROY_SECS` the call raises on its very first guard evaluation: it
never destroys, never logs the timeout error and never returns normally —
the bounded return, the error-logged timeout and the never-raises parts of
the claim are all false of the program. -/
theorem safeDestroyVM_raises (machines : List TangoMachine) (vm : TangoMachine)
    (maxSecs : Nat) :
    safeDestroyVMDist machines vm maxSecs = some (.error "NameError: vmname") := rfl

/-- C10: confirmed.  When the pool cursor is in range, `initializeVM`
returns the given machine updated only in its `domain_name` field, set to
the host the pool returned; `id`, `image`, `name` and `vmms` are
untouched. -/
theorem initializeVM_frame (p : HostPool) (vm : TangoMachine)
    (h : p.hostIdx < p.hosts.length) :
    ∃ host p2, getHost p = (some host, p2) ∧
      initializeVM p vm = some ({ vm with domain_name := host }, p2) := by
  have hget : p.hosts[p.hostIdx]? = some p.hosts[p.hostIdx] := List.getElem?_eq_getElem h
  refine ⟨p.hosts[p.hostIdx],
    ⟨p.hosts, if p.hosts.length ≤ p.hostIdx + 1 then 0 else p.hostIdx + 1⟩, ?_, ?_⟩
  · simp [getHost, hget]
  · simp [initializeVM, getHost, hget]

theorem initializeVM_frame_witness :
    ∃ host p2, getHost ⟨["hostA", "hostB"], 0⟩ = (some host, p2) ∧
      initializeVM ⟨["hostA", "hostB"], 0⟩ ⟨"distDocker", "vm-17", "", "17", "ubuntu"⟩ =
        some ({ (⟨"distDocker", "vm-17", "", "17", "ubuntu"⟩ : TangoMachine) with
                  domain_name := host }, p2) :=
  initializeVM_frame ⟨["hostA", "hostB"], 0⟩ ⟨"distDocker", "vm-17", "", "17", "ubuntu"⟩
    (by decide)
